import Mathlib

/-!
Shallow embedding of the dubbo-invoker plugin sources:
the Hessian-2 request encoder (src/dubbo/codec/encoder.py), the
argument-coercion layer (src/utils/dubbo_utils.py), the weighted provider
selection (src/utils/registry_strategy.py) and the tool parameter
processing (src/tools/dubbo_invoke.py).

Python values passed to the encoder are modelled by the inductive PyValue;
mutable encoder session state (Request.__classes / Request.types) is
threaded explicitly; raised exceptions become Except errors.  Python byte
lists are List Int: the encoder appends raw (possibly negative) integers
and the body is masked with & 0xff at the end, exactly as
Request._encode_request_body does.
-/

/-- Modelled from the spec: dubbo/common/constants.py is not under src/;
the spec fixes the int boundary at the signed 32-bit range
(integer, magnitude at most 2^31 - 1 is descriptor I, otherwise J). -/
def MAX_INT_32 : Int := 2147483647

/-- Modelled from the spec: lower end of the signed 32-bit range. -/
def MIN_INT_32 : Int := -2147483648

/-- Native Python values reaching the encoder and the coercion layer:
bool, int, str, None, list, dict, and dubbo.codec.encoder.Object
(a remote-class path with ordered fields). Floats are not modelled:
no claim mentions them and no coercion path produces them. -/
inductive PyValue where
  | bool (b : Bool)
  | int (n : Int)
  | str (s : String)
  | null
  | list (xs : List PyValue)
  | dict (entries : List (String × PyValue))
  | obj (path : String) (fields : List (String × PyValue))
deriving Repr

/-- Python exceptions raised by the embedded code (messages abbreviated). -/
inductive PyErr where
  | hessianTypeError (msg : String)
  | valueError (msg : String)
deriving Repr, DecidableEq

/-- Encoder session state: Request.__classes (emitted class paths)
and Request.types (emitted list-type tags). -/
structure EncState where
  classes : List String
  types : List String
deriving Repr, DecidableEq

/-- Python list.index: index of the first occurrence. -/
def pyIndexOf {α : Type} [DecidableEq α] : List α → α → Nat
  | [], _ => 0
  | a :: l, x => if a = x then 0 else pyIndexOf l x + 1

/-- Python membership test (the in operator) on a list. -/
def py_contains {α : Type} [DecidableEq α] : List α → α → Bool
  | [], _ => false
  | a :: l, x => if a = x then true else py_contains l x

/-- Python whitespace for str.strip (space, tab, newlines, vtab, formfeed). -/
def pySpace (c : Char) : Bool :=
  c = ' ' ∨ c = '\t' ∨ c = '\n' ∨ c = '\r' ∨ c.toNat = 11 ∨ c.toNat = 12

/-- Python str.strip(). -/
def pyStrip (s : String) : String :=
  String.mk (((s.toList.dropWhile pySpace).reverse.dropWhile pySpace).reverse)

/-- Python path.replace(".", "/"). -/
def dots_to_slashes (s : String) : String :=
  String.mk (s.toList.map (fun c => if c = '.' then '/' else c))

/-- Final masking loop of Request._encode_request_body: body[i] &= 0xff. -/
def mask_bytes (l : List Int) : List Int := l.map (fun b => b % 256)

/-- Request._encode_bool. -/
def encode_bool (b : Bool) : List Int := if b then [0x54] else [0x46]

/-- struct.pack("!q", v): 8 bytes, big-endian two's complement
(Python raises struct.error beyond 64 bits; that case is not modelled,
no claim reaches it). -/
def pack_q (v : Int) : List Int :=
  [(v / 72057594037927936) % 256, (v / 281474976710656) % 256,
   (v / 1099511627776) % 256, (v / 4294967296) % 256,
   (v / 16777216) % 256, (v / 65536) % 256, (v / 256) % 256, v % 256]

/-- Request._encode_int: Python v >> k is floor division by 2^k;
bytes are appended raw and masked later by the body loop. -/
def encode_int (v : Int) : List Int :=
  if v > MAX_INT_32 ∨ v < MIN_INT_32 then
    0x4c :: pack_q v
  else if -0x10 ≤ v ∧ v ≤ 0x2f then
    [v + 0x90]
  else if -0x800 ≤ v ∧ v ≤ 0x7ff then
    [0xc8 + v / 256, v]
  else if -0x40000 ≤ v ∧ v ≤ 0x3ffff then
    [0xd4 + v / 65536, v / 256, v]
  else
    [0x49, v / 16777216, v / 65536, v / 256, v]

/-- One character of Request._encode_utf (ord of the code point,
branching on its magnitude exactly as the source does). -/
def utf_char_bytes (c : Char) : List Int :=
  let ch : Nat := c.toNat
  if ch < 0x80 then
    [((ch &&& 0xff : Nat) : Int)]
  else if ch < 0x800 then
    [(((0xc0 + ((ch >>> 6) &&& 0x1f)) &&& 0xff : Nat) : Int),
     (((0x80 + (ch &&& 0x3f)) &&& 0xff : Nat) : Int)]
  else
    [(((0xe0 + ((ch >>> 12) &&& 0xf)) &&& 0xff : Nat) : Int),
     (((0x80 + ((ch >>> 6) &&& 0x3f)) &&& 0xff : Nat) : Int),
     (((0x80 + (ch &&& 0x3f)) &&& 0xff : Nat) : Int)]

/-- Request._encode_utf over the characters of the string. -/
def encode_utf : List Char → List Int
  | [] => []
  | c :: r => utf_char_bytes c ++ encode_utf r

/-- Request._encode_str: the length prefix uses len(value),
the number of characters of the Python string. -/
def encode_str (s : String) : List Int :=
  (let n := s.toList.length
   if n ≤ 0x1f then
     [(n : Int)]
   else if n ≤ 0x3ff then
     [0x30 + (n : Int) / 256, (n : Int)]
   else
     [0x53, (n : Int) / 256, (n : Int)]) ++ encode_utf s.toList

/-- Python type(x) identity used by the list homogeneity check of
Request._encode_list: one tag per native class (all Object instances share
one class, as do all dicts and all lists). -/
def kindOf : PyValue → Nat
  | .bool _ => 0
  | .int _ => 1
  | .str _ => 2
  | .null => 3
  | .list _ => 4
  | .dict _ => 5
  | .obj _ _ => 6

/-- List element-type tag derived from the first element in
Request._encode_list (floats are not modelled; dict, list and None first
elements hit the final raise). -/
def list_type_tag : PyValue → Option String
  | .bool _ => some "[boolean"
  | .int _ => some "[int"
  | .str _ => some "[string"
  | .obj _ _ => some "[object"
  | _ => none

/-- Header of Request._encode_list: the 0x70+len or 0x56 byte, then the
type tag by literal string on first use (pushing it onto Request.types) or
by integer index on reuse, then for the long form the length. -/
def list_header (st : EncState) (t : String) (n : Nat) : EncState × List Int :=
  if n < 7 then
    if py_contains st.types t then
      (st, ((0x70 + n : Nat) : Int) :: encode_int (pyIndexOf st.types t))
    else
      (⟨st.classes, st.types ++ [t]⟩, ((0x70 + n : Nat) : Int) :: encode_str t)
  else
    if py_contains st.types t then
      (st, 0x56 :: (encode_int (pyIndexOf st.types t) ++ encode_int (n : Int)))
    else
      (⟨st.classes, st.types ++ [t]⟩, 0x56 :: (encode_str t ++ encode_int (n : Int)))

/-- Bytes of the class definition emitted by Request._encode_object on the
first occurrence of a path: marker C, the path string, the field count,
then each field name. -/
def class_def_bytes (path : String) (fields : List (String × PyValue)) : List Int :=
  0x43 :: (encode_str path ++ encode_int fields.length ++
    (fields.map Prod.fst).foldr (fun s acc => encode_str s ++ acc) [])

/-- Class reference bytes of Request._encode_object: the single byte
(0x60 + id) & 0xff when id is at most 0x0f, otherwise marker O followed by
the id as a Hessian integer. -/
def class_ref_bytes (k : Nat) : List Int :=
  if k ≤ 0xf then [(((k + 0x60) &&& 0xff : Nat) : Int)] else 0x4f :: encode_int (k : Int)

/-- Key containment test of "elementData" in value (Object.__contains__). -/
def has_element_data (fields : List (String × PyValue)) : Bool :=
  fields.any (fun f => f.1 == "elementData")

/-- Prefix already-emitted bytes onto a sub-encoding; on error the partial
bytes are discarded (the Python exception propagates) while the state of
the sub-encoding persists. -/
def prepend_ok (pre : List Int) (r : EncState × Except PyErr (List Int)) :
    EncState × Except PyErr (List Int) :=
  (r.1, r.2.map (fun bs => pre ++ bs))

mutual

/-- Request._encode_single_value: dispatch on the native shape.  Strings,
ints and bools do not touch the session state; dict (and every unknown
shape) raises HessianTypeError. -/
def encode_value (st : EncState) (v : PyValue) : EncState × Except PyErr (List Int) :=
  match v with
  | .bool b => (st, .ok (encode_bool b))
  | .int n => (st, .ok (encode_int n))
  | .str s => (st, .ok (encode_str s))
  | .obj p fs =>
    -- Request._encode_object, inlined for structural recursion
    if p = "java.util.ArrayList" ∧ has_element_data fs = true then
      encode_element_data st fs
    else if py_contains st.classes p then
      prepend_ok (class_ref_bytes (pyIndexOf st.classes p))
        (encode_field_values st fs)
    else
      prepend_ok
        (class_def_bytes p fs ++
          class_ref_bytes (pyIndexOf (st.classes ++ [p]) p))
        (encode_field_values ⟨st.classes ++ [p], st.types⟩ fs)
  | .list xs => encode_list st xs
  | .null => (st, .ok [0x4e])
  | .dict _ => (st, .error (.hessianTypeError "Unknown args type"))

/-- The special collection branch of Request._encode_object: encode
value["elementData"] (always a list when produced by the coercion layer)
as a list instead of emitting the object. -/
def encode_element_data (st : EncState) (fields : List (String × PyValue)) :
    EncState × Except PyErr (List Int) :=
  match fields with
  | [] => (st, .error (.hessianTypeError "elementData missing"))
  | (name, .list ys) :: r =>
    if name = "elementData" then encode_list st ys
    else encode_element_data st r
  | (name, _) :: r =>
    if name = "elementData" then
      (st, .error (.hessianTypeError "elementData is not a list"))
    else encode_element_data st r

/-- Field-value loop of Request._encode_object: encode each field value in
insertion order, threading the session state, stopping at the first error
(the state mutations made so far persist, as in Python). -/
def encode_field_values (st : EncState) (fields : List (String × PyValue)) :
    EncState × Except PyErr (List Int) :=
  match fields with
  | [] => (st, .ok [])
  | f :: rest =>
    match encode_value st f.2 with
    | (st1, .error e) => (st1, .error e)
    | (st1, .ok bs) =>
      match encode_field_values st1 rest with
      | (st2, .error e) => (st2, .error e)
      | (st2, .ok bs2) => (st2, .ok (bs ++ bs2))

/-- Request._encode_list: empty lists encode as null; otherwise the header
(with type-table mutation) is built from the first element, then every
element is checked against the first element's type and encoded. -/
def encode_list (st : EncState) (xs : List PyValue) : EncState × Except PyErr (List Int) :=
  match xs with
  | [] => (st, .ok [0x4e])
  | x :: rest =>
    match list_type_tag x with
    | none => (st, .error (.hessianTypeError "Unknown list type"))
    | some t =>
      match list_header st t (rest.length + 1) with
      | (st1, hdr) =>
        -- first loop iteration: the type check against value[0] is trivially true
        match encode_value st1 x with
        | (st2, .error e) => (st2, .error e)
        | (st2, .ok b0) =>
          match encode_list_rest st2 (kindOf x) rest with
          | (st3, .error e) => (st3, .error e)
          | (st3, .ok bs) => (st3, .ok (hdr ++ b0 ++ bs))

/-- Remaining loop iterations of Request._encode_list: raise
HessianTypeError when an element's type differs from the first element's,
otherwise encode it. -/
def encode_list_rest (st : EncState) (k : Nat) (xs : List PyValue) :
    EncState × Except PyErr (List Int) :=
  match xs with
  | [] => (st, .ok [])
  | v :: r =>
    if kindOf v ≠ k then
      (st, .error (.hessianTypeError "All elements in list must be the same type"))
    else
      match encode_value st v with
      | (st1, .error e) => (st1, .error e)
      | (st1, .ok bs) =>
        match encode_list_rest st1 k r with
        | (st2, .error e) => (st2, .error e)
        | (st2, .ok bs2) => (st2, .ok (bs ++ bs2))

end

/-- Request._encode_object as its own entry point (the obj arm of
encode_value). -/
def encode_object (st : EncState) (path : String) (fields : List (String × PyValue)) :
    EncState × Except PyErr (List Int) :=
  encode_value st (.obj path fields)

/-- Encoding loop over the argument list of Request._encode_request_body. -/
def encode_seq (st : EncState) : List PyValue → EncState × Except PyErr (List Int)
  | [] => (st, .ok [])
  | v :: rest =>
    match encode_value st v with
    | (st1, .error e) => (st1, .error e)
    | (st1, .ok bs) =>
      match encode_seq st1 rest with
      | (st2, .error e) => (st2, .error e)
      | (st2, .ok bs2) => (st2, .ok (bs ++ bs2))

/-- Request._get_class_name: JVM descriptor inferred from a value's shape. -/
def get_class_name : PyValue → Except PyErr String
  | .bool _ => .ok "Z"
  | .int n => .ok (if MIN_INT_32 ≤ n ∧ n ≤ MAX_INT_32 then "I" else "J")
  | .str _ => .ok "Ljava/lang/String;"
  | .obj p _ => .ok ("L" ++ dots_to_slashes p ++ ";")
  | .list [] => .error (.hessianTypeError "Method parameter is a list but length is zero")
  | .list (x :: _) =>
    match get_class_name x with
    | .ok s => .ok ("[" ++ s)
    | .error e => .error e
  | .null => .error (.hessianTypeError "Unknown argument type")
  | .dict _ => .error (.hessianTypeError "Unknown argument type")

/-- Request._get_parameter_types: concatenation of the per-argument
descriptors, stopping at the first failure. -/
def get_parameter_types : List PyValue → Except PyErr String
  | [] => .ok ""
  | a :: r =>
    match get_class_name a with
    | .error e => .error e
    | .ok s =>
      match get_parameter_types r with
      | .error e => .error e
      | .ok rest => .ok (s ++ rest)

/-- Characters strictly before the first matching character
(Python str.split(sep)[0] for a one-character separator). -/
def take_before (sep : Char) : List Char → List Char
  | [] => []
  | c :: r => if c = sep then [] else c :: take_before sep r

/-- First-character test (Python str.startswith for a 1-char pattern). -/
def head_char_is (c : Char) (s : String) : Bool :=
  match s.toList with
  | d :: _ => d = c
  | [] => false

/-- Last-character test (Python str.endswith for a 1-char pattern). -/
def last_char_is (c : Char) (s : String) : Bool :=
  match s.toList.reverse with
  | d :: _ => d = c
  | [] => false

/-- Primitive-name table of Request._java_type_to_jvm_signature. -/
def prim_sig (t : String) : Option String :=
  if t = "boolean" then some "Z"
  else if t = "byte" then some "B"
  else if t = "char" then some "C"
  else if t = "short" then some "S"
  else if t = "int" then some "I"
  else if t = "long" then some "J"
  else if t = "float" then some "F"
  else if t = "double" then some "D"
  else if t = "void" then some "V"
  else none

/-- Request._java_type_to_jvm_signature: pass pre-formed descriptors
through, map primitive names, recurse on [] suffixes, strip generics, and
slash-qualify the rest. -/
def java_type_to_jvm_signature (t : String) : String :=
  if head_char_is '[' t = true ∨ (head_char_is 'L' t = true ∧ last_char_is ';' t = true) then t
  else
    match prim_sig t with
    | some sig => sig
    | none =>
      if _hb : 2 ≤ t.toList.length ∧
          t.toList.drop (t.toList.length - 2) = ['[', ']'] then
        "[" ++ java_type_to_jvm_signature (String.mk (t.toList.take (t.toList.length - 2)))
      else
        let t1 := if t.toList.contains '<' then String.mk (take_before '<' t.toList) else t
        "L" ++ dots_to_slashes t1 ++ ";"
termination_by t.toList.length
decreasing_by
  show (List.take (t.toList.length - 2) t.toList).length < t.toList.length
  simp only [List.length_take]
  omega

/-- Request._convert_java_types_to_jvm_signature. -/
def convert_java_types_to_jvm_signature : List String → String
  | [] => ""
  | t :: r => java_type_to_jvm_signature t ++ convert_java_types_to_jvm_signature r

/-- One request as handed to Request.__init__ by the connection layer. -/
structure RequestPayload where
  dubbo_version : String
  path : String
  version : String
  method : String
  arguments : List PyValue
  parameter_types : Option (List String)
  context : Option (List (String × String))

/-- Python dict update for the attachments map: replace in place on an
existing key, append otherwise. -/
def update_assoc (m : List (String × String)) (k v : String) : List (String × String) :=
  if m.any (fun p => p.1 == k) then
    m.map (fun p => if p.1 = k then (k, v) else p)
  else m ++ [(k, v)]

/-- Attachments dict of Request._encode_request_body: path, interface and
version in insertion order, then the caller context merged on top. -/
def build_attachments (path version : String) (context : Option (List (String × String))) :
    List (String × String) :=
  let base := [("path", path), ("interface", path), ("version", version)]
  match context with
  | none => base
  | some ctx => ctx.foldl (fun m kv => update_assoc m kv.1 kv.2) base

/-- Alternating key and value strings of the attachments loop. -/
def encode_attachments : List (String × String) → List Int
  | [] => []
  | (k, v) :: r => encode_str k ++ encode_str v ++ encode_attachments r

/-- Request._encode_request_body, generalized over the session state the
Request starts from (Request.__init__ makes it empty; the generalization
lets the no-leak property be stated).  Emits the four header strings, the
parameter-type descriptor (explicit types when the truthy
parameter_types key is present, else inferred), the arguments, and the
attachments between H and Z, then masks every byte with & 0xff. -/
def encode_request_body_from (st0 : EncState) (rp : RequestPayload) :
    EncState × Except PyErr (List Int) :=
  let head := encode_str rp.dubbo_version ++ encode_str rp.path ++
    encode_str rp.version ++ encode_str rp.method
  let ptypes : Except PyErr (List Int) :=
    match rp.parameter_types with
    | some (t :: ts) => .ok (encode_str (convert_java_types_to_jvm_signature (t :: ts)))
    | _ =>
      match get_parameter_types rp.arguments with
      | .ok s => .ok (encode_str s)
      | .error e => .error e
  match ptypes with
  | .error e => (st0, .error e)
  | .ok ptBytes =>
    match encode_seq st0 rp.arguments with
    | (st1, .error e) => (st1, .error e)
    | (st1, .ok argBytes) =>
      let attBytes := 0x48 ::
        (encode_attachments (build_attachments rp.path rp.version rp.context) ++ [0x5a])
      (st1, .ok (mask_bytes (head ++ ptBytes ++ argBytes ++ attBytes)))

/-- Modelled from the spec: the connection layer (absent from src/)
constructs one fresh Request per frame, so every body encoding starts from
the empty session tables set up by Request.__init__. -/
def encode_request_body (rp : RequestPayload) : EncState × Except PyErr (List Int) :=
  encode_request_body_from ⟨[], []⟩ rp

/-- Modelled from the spec: a sequence of frames on one connection; each
frame is encoded by its own fresh Request. -/
def run_requests (rps : List RequestPayload) : List (EncState × Except PyErr (List Int)) :=
  rps.map encode_request_body

/-! Coercion layer: DubboProtocolHandler in src/utils/dubbo_utils.py. -/

/-- DubboProtocolHandler.BASIC_TYPES. -/
def BASIC_TYPES : List String :=
  ["java.lang.String", "java.lang.Integer", "java.lang.Long",
   "java.lang.Float", "java.lang.Double", "java.lang.Boolean",
   "java.lang.Byte", "java.lang.Short", "java.lang.Character",
   "int", "long", "float", "double", "boolean", "byte", "short", "char"]

/-- DubboProtocolHandler.COLLECTION_TYPES. -/
def COLLECTION_TYPES : List String :=
  ["java.util.List", "java.util.ArrayList", "java.util.LinkedList",
   "java.util.Map", "java.util.HashMap", "java.util.LinkedHashMap",
   "java.util.Set", "java.util.HashSet", "java.util.LinkedHashSet"]

/-- DubboProtocolHandler.MAP_TYPES. -/
def MAP_TYPES : List String :=
  ["java.util.Map", "java.util.HashMap", "java.util.LinkedHashMap",
   "java.util.TreeMap", "java.util.ConcurrentHashMap"]

/-- DubboProtocolHandler.LIST_TYPES. -/
def LIST_TYPES : List String :=
  ["java.util.List", "java.util.ArrayList", "java.util.LinkedList",
   "java.util.Vector", "java.util.Stack"]

/-- DubboProtocolHandler._extract_clean_type:
param_type.split("<")[0].strip(). -/
def extract_clean_type (t : String) : String :=
  pyStrip (String.mk (take_before '<' t.toList))

/-- DubboProtocolHandler._is_object_type. -/
def is_object_type (t : String) : Bool :=
  let c := extract_clean_type t
  ¬ py_contains BASIC_TYPES c ∧ ¬ py_contains COLLECTION_TYPES c ∧ ¬ head_char_is '[' c

/-- DubboProtocolHandler._is_map_type. -/
def is_map_type (t : String) : Bool :=
  py_contains MAP_TYPES (extract_clean_type t)

/-- DubboProtocolHandler._is_list_type. -/
def is_list_type (t : String) : Bool :=
  py_contains LIST_TYPES (extract_clean_type t)

/-- Generic-parameter extraction of
DubboProtocolHandler._convert_list_to_java_collection:
param_type[param_type.find("<")+1 : param_type.rfind(">")].strip()
when both angle brackets occur, None otherwise. -/
def extract_element_type (t : String) : Option String :=
  if t.toList.contains '<' ∧ t.toList.contains '>' then
    some (pyStrip (String.mk
      ((t.toList.drop (pyIndexOf t.toList '<' + 1)).take
        (t.toList.length - 1 - pyIndexOf t.toList.reverse '>' -
          (pyIndexOf t.toList '<' + 1)))))
  else none

mutual

/-- DubboProtocolHandler._convert_nested_value: dictionaries become
java.lang.Object-tagged named objects, lists are converted elementwise,
everything else is unchanged. -/
def convert_nested_value (v : PyValue) : PyValue :=
  match v with
  | .dict es => .obj (extract_clean_type "java.lang.Object") (convert_entries es)
  | .list xs => .list (convert_each xs)
  | _ => v

/-- Entry loop of DubboProtocolHandler._convert_dict_to_object. -/
def convert_entries : List (String × PyValue) → List (String × PyValue)
  | [] => []
  | (k, v) :: r => (k, convert_nested_value v) :: convert_entries r

/-- Element loop of the list arm of
DubboProtocolHandler._convert_nested_value. -/
def convert_each : List PyValue → List PyValue
  | [] => []
  | x :: r => convert_nested_value x :: convert_each r

end

/-- DubboProtocolHandler._convert_dict_to_object. -/
def convert_dict_to_object (entries : List (String × PyValue)) (param_type : String) : PyValue :=
  .obj (extract_clean_type param_type) (convert_entries entries)

/-- Element loop of DubboProtocolHandler._convert_list_to_java_collection:
dictionaries are wrapped with the generic element type only when one is
present and truthy (a non-empty string); everything else is unchanged. -/
def convert_collection_elements (et : Option String) : List PyValue → List PyValue
  | [] => []
  | x :: r =>
    (match x, et with
     | .dict es, some etv => if etv = "" then .dict es else convert_dict_to_object es etv
     | _, _ => x) :: convert_collection_elements et r

/-- DubboProtocolHandler._convert_list_to_java_collection: clean the
declared type, canonicalize the java.util.List interface to
java.util.ArrayList, convert elements, and build the named object with
fields elementData and size. -/
def convert_list_to_java_collection (xs : List PyValue) (param_type : String) : PyValue :=
  let clean0 := extract_clean_type param_type
  let clean := if clean0 = "java.util.List" then "java.util.ArrayList" else clean0
  let converted := convert_collection_elements (extract_element_type param_type) xs
  .obj clean [("elementData", .list converted), ("size", .int converted.length)]

/-- DubboProtocolHandler._convert_single_param. -/
def convert_single_param (p : PyValue) (t : String) : PyValue :=
  match p with
  | .dict es =>
    if is_object_type t ∨ is_map_type t then convert_dict_to_object es t else .dict es
  | .list xs =>
    if is_list_type t then convert_list_to_java_collection xs t else .list xs
  | _ => p

/-- DubboClient.call lines 73-74: a non-list args value is wrapped into a
one-element list; a list is used as the argument list itself. -/
def client_call_args (args : PyValue) : List PyValue :=
  match args with
  | .list xs => xs
  | v => [v]

/-- DubboProtocolHandler._call_with_types composed with the args handling
of DubboClient.call: the argument list that reaches the request body.
param_types is the non-None declared type list. -/
def call_with_types_args (params : PyValue) (param_types : List String) :
    Except PyErr (List PyValue) :=
  match param_types with
  | [] => .ok (client_call_args (.list []))
  | [t] => .ok (client_call_args (convert_single_param params t))
  | _ =>
    match params with
    | .list xs =>
      if xs.length ≠ param_types.length then
        .error (.valueError "Number of parameters does not match number of parameter types")
      else
        .ok (client_call_args (.list (List.zipWith convert_single_param xs param_types)))
    | _ => .error (.valueError "For multi-parameter invocation, params must be list or tuple type")

/-! Tool parameter processing: DubboInvokeTool in src/tools/dubbo_invoke.py. -/

/-- Character loop of DubboInvokeTool._parse_parameter_types: split on
commas only at angle-bracket depth zero, strip each piece, skip blanks. -/
def parse_types_go : List Char → List Char → Int → List String → List String
  | [], cur, _, acc =>
    if pyStrip (String.mk cur) ≠ "" then acc ++ [pyStrip (String.mk cur)] else acc
  | c :: rest, cur, depth, acc =>
    if c = '<' then parse_types_go rest (cur ++ [c]) (depth + 1) acc
    else if c = '>' then parse_types_go rest (cur ++ [c]) (depth - 1) acc
    else if c = ',' ∧ depth = 0 then
      parse_types_go rest [] 0
        (if pyStrip (String.mk cur) ≠ "" then acc ++ [pyStrip (String.mk cur)] else acc)
    else parse_types_go rest (cur ++ [c]) depth acc

/-- DubboInvokeTool._parse_parameter_types. -/
def parse_parameter_types (s : String) : List String :=
  if pyStrip s = "" then [] else parse_types_go s.toList [] 0 []

/-- Blank normalization at the top of
DubboInvokeTool._process_typed_parameters: an absent or whitespace-only
string becomes None. -/
def normalize_param : Option String → Option String
  | some s => if pyStrip s = "" then none else some s
  | none => none

/-- DubboInvokeTool._process_typed_parameters.  The JSON decoding of
parameter_values is abstracted by the parse argument (json.loads is
external to this repository); the result pairs the decoded parameter
object (None for the no-parameter call) with the declared type list
(None marks the traditional untyped invocation). -/
def process_typed_parameters (parse : String → Except PyErr PyValue)
    (parameter_types parameter_values : Option String) :
    Except PyErr (Option PyValue × Option (List String)) :=
  match normalize_param parameter_types, normalize_param parameter_values with
  | none, none => .ok (none, some [])
  | none, some v =>
    match parse v with
    | .ok x => .ok (some x, none)
    | .error _ => .error (.valueError "Parameter values must be in valid JSON format")
  | some _, none =>
    .error (.valueError "Parameter types provided but parameter values not provided")
  | some t, some v =>
    let types_list := parse_parameter_types t
    match parse v with
    | .error _ => .error (.valueError "Parameter values must be in valid JSON format")
    | .ok values =>
      if types_list.length = 1 then .ok (some values, some types_list)
      else
        match values with
        | .list xs =>
          if xs.length ≠ types_list.length then
            .error (.valueError
              "Number of parameter values does not match number of parameter types")
          else .ok (some values, some types_list)
        | _ =>
          .error (.valueError "For multi-parameter invocation, parameter_values must be a JSON array")

/-! Provider selection: RegistryStrategy.select_provider_by_weight in
src/utils/registry_strategy.py.  Weights are modelled as rationals; the
drawn value hit stands for random.random() * total_weight, and the choice
function stands for random.choice over the uri list. -/

/-- Sum of the weights. -/
def total_weight (hosts : List (String × ℚ)) : ℚ :=
  (hosts.map Prod.snd).sum

/-- The cumulative-weight loop of select_provider_by_weight: return the
first uri whose running total exceeds the drawn value. -/
def sel_loop (hit : ℚ) : List (String × ℚ) → ℚ → Option String
  | [], _ => none
  | (u, w) :: rest, cur =>
    if hit < cur + w then some u else sel_loop hit rest (cur + w)

/-- RegistryStrategy.select_provider_by_weight. -/
def select_provider_by_weight (hosts : List (String × ℚ)) (hit : ℚ)
    (choice : List String → String) : Except PyErr String :=
  match hosts with
  | [] => .error (.valueError "No available service provider")
  | _ =>
    if total_weight hosts ≤ 0 then .ok (choice (hosts.map Prod.fst))
    else
      match sel_loop hit hosts 0 with
      | some uri => .ok uri
      | none => .ok (choice (hosts.map Prod.fst))

/-- Specification-side selection: the first record in iteration order
whose cumulative weight exceeds the drawn value x. -/
def first_cum_exceeding : List (String × ℚ) → ℚ → Option String
  | [], _ => none
  | (u, w) :: rest, x => if x < w then some u else first_cum_exceeding rest (x - w)

/-- Follows the spec's words for the long-string claim, for comparison
with the encoder: split the UTF-8 bytes into chunks of at most 0xffff
bytes, each non-final chunk prefixed by marker 0x52 and two length bytes,
the final chunk prefixed by marker 0x53 and two length bytes. -/
def spec_chunked (bs : List Int) : List Int :=
  if bs.length ≤ 0xffff then
    0x53 :: ((bs.length : Int) / 256) :: ((bs.length : Int) % 256) :: bs
  else
    0x52 :: 0xff :: 0xff :: (bs.take 0xffff ++ spec_chunked (bs.drop 0xffff))
termination_by bs.length
decreasing_by
  simp only [List.length_drop]
  omega

/-! Helper lemmas shared by the string theorems. -/

theorem encode_str_short (s : String) (h : s.toList.length ≤ 0x1f) :
    encode_str s = ((s.toList.length : Nat) : Int) :: encode_utf s.toList := by
  simp only [encode_str]
  rw [if_pos h]
  rfl

theorem encode_str_mid (s : String) (h1 : 0x1f < s.toList.length)
    (h2 : s.toList.length ≤ 0x3ff) :
    encode_str s = (0x30 + ((s.toList.length : Int) / 256)) ::
      ((s.toList.length : Nat) : Int) :: encode_utf s.toList := by
  simp only [encode_str]
  rw [if_neg (by omega), if_pos h2]
  rfl

theorem encode_str_long (s : String) (h : 0x3ff < s.toList.length) :
    encode_str s = 0x53 :: ((s.toList.length : Int) / 256) ::
      ((s.toList.length : Nat) : Int) :: encode_utf s.toList := by
  simp only [encode_str]
  rw [if_neg (by omega), if_neg (by omega)]
  rfl

theorem utf_char_bytes_a : utf_char_bytes 'a' = [97] := by decide

theorem encode_utf_replicate_a (n : Nat) :
    encode_utf (List.replicate n 'a') = List.replicate n 97 := by
  induction n with
  | zero => rfl
  | succ k ih =>
    simp [List.replicate_succ, encode_utf, utf_char_bytes_a, ih]

/-- C1: the claim says the string length prefix holds the UTF-8 byte
length, with "张三" encoded as 0x06 followed by its six UTF-8 bytes.  The
encoder writes len(value), the number of characters: "张三" is encoded as
0x02 followed by the six UTF-8 bytes, so the claimed bytes differ. -/
theorem c1_str_len_counterexample :
    encode_str "张三" = [0x02, 0xe5, 0xbc, 0xa0, 0xe4, 0xb8, 0x89] ∧
    encode_str "张三" ≠ 0x06 :: encode_utf "张三".toList := by
  constructor
  · rfl
  · decide

/-- C1 (amended): for every string, the length written in the Hessian-2
string prefix is the number of characters (code points) of the string,
not its UTF-8 byte length: the 1-byte prefix holds the count itself, the
2-byte form holds 0x30+(count>>8) and count, and the long form holds
marker S with two count bytes; the UTF-8 bytes follow the prefix in every
branch.  In particular "张三" (two characters, six UTF-8 bytes) gets the
1-byte prefix 0x02. -/
theorem c1_str_len_is_char_count (s : String) :
    (s.toList.length ≤ 0x1f →
      encode_str s = ((s.toList.length : Nat) : Int) :: encode_utf s.toList) ∧
    (0x1f < s.toList.length → s.toList.length ≤ 0x3ff →
      encode_str s = (0x30 + ((s.toList.length : Int) / 256)) ::
        ((s.toList.length : Nat) : Int) :: encode_utf s.toList) ∧
    (0x3ff < s.toList.length →
      encode_str s = 0x53 :: ((s.toList.length : Int) / 256) ::
        ((s.toList.length : Nat) : Int) :: encode_utf s.toList) :=
  ⟨encode_str_short s, encode_str_mid s, encode_str_long s⟩

/-- C1 witness: the amended theorem applied to "张三" (1-byte form), to a
100-character string (2-byte form) and to a 1040-character string (long
form). -/
theorem c1_str_len_is_char_count_witness :
    encode_str "张三" = ((("张三".toList.length : Nat)) : Int) :: encode_utf "张三".toList ∧
    encode_str (String.mk (List.replicate 100 'a')) =
      (0x30 + ((((String.mk (List.replicate 100 'a')).toList.length : Int)) / 256)) ::
      ((((String.mk (List.replicate 100 'a')).toList.length : Nat)) : Int) ::
      encode_utf (String.mk (List.replicate 100 'a')).toList ∧
    encode_str (String.mk (List.replicate 1040 'a')) =
      0x53 :: ((((String.mk (List.replicate 1040 'a')).toList.length : Int)) / 256) ::
      ((((String.mk (List.replicate 1040 'a')).toList.length : Nat)) : Int) ::
      encode_utf (String.mk (List.replicate 1040 'a')).toList :=
  ⟨(c1_str_len_is_char_count "张三").1 (by decide),
   (c1_str_len_is_char_count (String.mk (List.replicate 100 'a'))).2.1
     (by rw [show (String.mk (List.replicate 100 'a')).toList = List.replicate 100 'a' from rfl,
           List.length_replicate]; omega)
     (by rw [show (String.mk (List.replicate 100 'a')).toList = List.replicate 100 'a' from rfl,
           List.length_replicate]; omega),
   (c1_str_len_is_char_count (String.mk (List.replicate 1040 'a'))).2.2
     (by rw [show (String.mk (List.replicate 1040 'a')).toList = List.replicate 1040 'a' from rfl,
           List.length_replicate]; omega)⟩

/-- Long all-ASCII string used by the C5 counterexample: 0x10000
characters, hence 0x10000 UTF-8 bytes, more than one chunk's worth. -/
def big_chunk_str : String := String.mk (List.replicate 65536 'a')

/-- C5: the claim says strings longer than 0x3ff are split into chunks of
at most 0xffff bytes with non-final marker 0x52.  The encoder never
chunks: on a 0x10000-character string it emits the single marker
0x53 ('S') with a two-byte length and then all bytes, while the claimed
chunked form must start with the non-final marker 0x52. -/
theorem c5_chunking_counterexample :
    (encode_str big_chunk_str).head? = some 0x53 ∧
    (spec_chunked (encode_utf big_chunk_str.toList)).head? = some 0x52 ∧
    encode_str big_chunk_str ≠ spec_chunked (encode_utf big_chunk_str.toList) := by
  have htl : big_chunk_str.toList = List.replicate 65536 'a' := rfl
  have hlen : big_chunk_str.toList.length = 65536 := by
    rw [htl, List.length_replicate]
  have h1 : (encode_str big_chunk_str).head? = some 0x53 := by
    rw [encode_str_long big_chunk_str (by omega)]
    rfl
  have hulen : (encode_utf big_chunk_str.toList).length = 65536 := by
    rw [htl, encode_utf_replicate_a, List.length_replicate]
  have h2 : (spec_chunked (encode_utf big_chunk_str.toList)).head? = some 0x52 := by
    unfold spec_chunked
    rw [if_neg (by omega)]
    rfl
  refine ⟨h1, h2, ?_⟩
  intro h
  rw [h, h2] at h1
  simp at h1

/-- C5 (amended): for every string longer than 0x3ff characters the
encoder emits the single prefix [0x53 ('S'), length >> 8, length] followed
by all UTF-8 bytes; it never splits into chunks and never emits the
non-final marker 0x52.  For single-chunk strings (length at most 0xffff)
this coincides with the final-chunk form the claim accepts. -/
theorem c5_no_chunking (s : String) (h : 0x3ff < s.toList.length) :
    encode_str s = 0x53 :: ((s.toList.length : Int) / 256) ::
      ((s.toList.length : Nat) : Int) :: encode_utf s.toList :=
  encode_str_long s h

/-- C5 witness: the amended theorem applied to a 1024-character string. -/
theorem c5_no_chunking_witness :
    encode_str (String.mk (List.replicate 1024 'a')) =
      0x53 :: (((String.mk (List.replicate 1024 'a')).toList.length : Int) / 256) ::
      (((String.mk (List.replicate 1024 'a')).toList.length : Nat) : Int) ::
      encode_utf (String.mk (List.replicate 1024 'a')).toList :=
  c5_no_chunking (String.mk (List.replicate 1024 'a'))
    (by rw [show (String.mk (List.replicate 1024 'a')).toList = List.replicate 1024 'a' from rfl,
          List.length_replicate]; omega)

/-- C7: the claim quantifies over every integer, with the 5-byte I form
beyond the 3-byte range.  Beyond the 32-bit range the encoder instead
emits the 9-byte long form: marker L (0x4c) and eight bytes, refuting the
claim at v = 2^31. -/
theorem c7_int_counterexample :
    mask_bytes (encode_int 2147483648) = [0x4c, 0, 0, 0, 0, 0x80, 0, 0, 0] ∧
    (mask_bytes (encode_int 2147483648)).length = 9 ∧
    (encode_int 2147483648).head? = some 0x4c ∧
    some (0x4c : Int) ≠ some (0x49 : Int) := by
  refine ⟨by decide, by decide, by decide, by decide⟩

/-- C7 (amended): for every integer in the signed 32-bit range the encoder
produces the claimed 1-, 2-, 3- and 5-byte forms on the claimed ranges
(bytes shown after the body's & 0xff masking; v / 2^k is Python's v >> k
and v % 256 is v & 0xff); integers outside the 32-bit range take the
9-byte long form instead. -/
theorem c7_encode_int_forms (v : Int) (h1 : MIN_INT_32 ≤ v) (h2 : v ≤ MAX_INT_32) :
    ((-0x10 ≤ v ∧ v ≤ 0x2f) → mask_bytes (encode_int v) = [v + 0x90]) ∧
    (¬(-0x10 ≤ v ∧ v ≤ 0x2f) → (-0x800 ≤ v ∧ v ≤ 0x7ff) →
      mask_bytes (encode_int v) = [0xc8 + v / 256, v % 256]) ∧
    (¬(-0x800 ≤ v ∧ v ≤ 0x7ff) → (-0x40000 ≤ v ∧ v ≤ 0x3ffff) →
      mask_bytes (encode_int v) = [0xd4 + v / 65536, (v / 256) % 256, v % 256]) ∧
    (¬(-0x40000 ≤ v ∧ v ≤ 0x3ffff) →
      mask_bytes (encode_int v) =
        [0x49, (v / 16777216) % 256, (v / 65536) % 256, (v / 256) % 256, v % 256]) := by
  simp only [MIN_INT_32, MAX_INT_32] at h1 h2
  have hio : ¬(v > 2147483647 ∨ v < -2147483648) := by omega
  refine ⟨?_, ?_, ?_, ?_⟩
  · intro hc
    simp only [encode_int, MIN_INT_32, MAX_INT_32]
    rw [if_neg hio, if_pos hc]
    simp only [mask_bytes, List.map_cons, List.map_nil, List.cons.injEq, and_true]
    omega
  · intro hn hc
    simp only [encode_int, MIN_INT_32, MAX_INT_32]
    rw [if_neg hio, if_neg hn, if_pos hc]
    simp only [mask_bytes, List.map_cons, List.map_nil, List.cons.injEq, and_true]
    omega
  · intro hn hc
    have hn1 : ¬(-0x10 ≤ v ∧ v ≤ 0x2f) := by omega
    simp only [encode_int, MIN_INT_32, MAX_INT_32]
    rw [if_neg hio, if_neg hn1, if_neg hn, if_pos hc]
    simp only [mask_bytes, List.map_cons, List.map_nil, List.cons.injEq, and_true]
    omega
  · intro hn
    have hn1 : ¬(-0x10 ≤ v ∧ v ≤ 0x2f) := by omega
    have hn2 : ¬(-0x800 ≤ v ∧ v ≤ 0x7ff) := by omega
    simp only [encode_int, MIN_INT_32, MAX_INT_32]
    rw [if_neg hio, if_neg hn1, if_neg hn2, if_neg hn]
    simp only [mask_bytes, List.map_cons, List.map_nil, List.cons.injEq, and_true]
    omega

/-- C7 witness: the amended theorem applied at one point per byte form
(25, 1000, 100000 and 1000000). -/
theorem c7_encode_int_forms_witness :
    mask_bytes (encode_int 25) = [(25 : Int) + 0x90] ∧
    mask_bytes (encode_int 1000) = [0xc8 + (1000 : Int) / 256, (1000 : Int) % 256] ∧
    mask_bytes (encode_int 100000) =
      [0xd4 + (100000 : Int) / 65536, ((100000 : Int) / 256) % 256, (100000 : Int) % 256] ∧
    mask_bytes (encode_int 1000000) =
      [0x49, ((1000000 : Int) / 16777216) % 256, ((1000000 : Int) / 65536) % 256,
       ((1000000 : Int) / 256) % 256, (1000000 : Int) % 256] := by
  refine ⟨?_, ?_, ?_, ?_⟩
  · exact (c7_encode_int_forms 25 (by decide) (by decide)).1 (by decide)
  · exact (c7_encode_int_forms 1000 (by decide) (by decide)).2.1 (by decide) (by decide)
  · exact (c7_encode_int_forms 100000 (by decide) (by decide)).2.2.1 (by decide) (by decide)
  · exact (c7_encode_int_forms 1000000 (by decide) (by decide)).2.2.2 (by decide)

/-- list.index finds a freshly appended element at the old length when it
was not present before. -/
theorem pyIndexOf_append_self (l : List String) (p : String)
    (h : py_contains l p = false) : pyIndexOf (l ++ [p]) p = l.length := by
  induction l with
  | nil => simp [pyIndexOf]
  | cons a t ih =>
    by_cases hap : a = p
    · subst hap
      simp [py_contains] at h
    · simp only [py_contains, if_neg hap] at h
      simp [pyIndexOf, hap, ih h]

/-- C3: within one request a fresh path p emits the class definition
(marker C, the path, the field count, the field names) exactly once,
appends p to the class table at index k = its old length, and then emits
the class reference (the byte 0x60+k for k at most 0x0f, else marker O
and k as an integer, per class_ref_bytes) followed by the field values;
a path already in the table emits only the class reference and the field
values, never the definition, and leaves the table's existing entries in
place. -/
theorem c3_encode_object_class_table (st : EncState) (p : String)
    (fields : List (String × PyValue))
    (hsp : ¬(p = "java.util.ArrayList" ∧ has_element_data fields = true)) :
    (py_contains st.classes p = false →
      encode_object st p fields =
        prepend_ok (class_def_bytes p fields ++ class_ref_bytes st.classes.length)
          (encode_field_values ⟨st.classes ++ [p], st.types⟩ fields)) ∧
    (py_contains st.classes p = true →
      encode_object st p fields =
        prepend_ok (class_ref_bytes (pyIndexOf st.classes p))
          (encode_field_values st fields)) := by
  constructor
  · intro hnew
    simp only [encode_object, encode_value]
    rw [if_neg hsp, if_neg (by simp [hnew]), pyIndexOf_append_self st.classes p hnew]
  · intro hseen
    simp only [encode_object, encode_value]
    rw [if_neg hsp, if_pos hseen]

/-- C3 witness: the theorem applied to a fresh path on the empty table and
to an already-recorded path at index 1. -/
theorem c3_encode_object_class_table_witness :
    encode_object ⟨[], []⟩ "com.x.Foo" [("f", .int 1)] =
      prepend_ok (class_def_bytes "com.x.Foo" [("f", .int 1)] ++ class_ref_bytes 0)
        (encode_field_values ⟨["com.x.Foo"], []⟩ [("f", .int 1)]) ∧
    encode_object ⟨["a.B", "com.x.Foo"], []⟩ "com.x.Foo" [("f", .int 2)] =
      prepend_ok (class_ref_bytes (pyIndexOf ["a.B", "com.x.Foo"] "com.x.Foo"))
        (encode_field_values ⟨["a.B", "com.x.Foo"], []⟩ [("f", .int 2)]) := by
  constructor
  · exact (c3_encode_object_class_table ⟨[], []⟩ "com.x.Foo" [("f", .int 1)]
      (by decide)).1 (by decide)
  · exact (c3_encode_object_class_table ⟨["a.B", "com.x.Foo"], []⟩ "com.x.Foo" [("f", .int 2)]
      (by decide)).2 (by decide)

/-- C2: the claim says every List-like declared type (java.util.List,
ArrayList, LinkedList, Vector, Stack) has its wrapped object's path
canonicalized to java.util.ArrayList.  The coercion only canonicalizes
the java.util.List interface: a java.util.LinkedList declaration keeps
its own path, which is not the ArrayList tag the encoder's special
collection branch looks for. -/
theorem c2_linkedlist_counterexample :
    convert_single_param (.list [.int 1]) "java.util.LinkedList" =
      .obj "java.util.LinkedList" [("elementData", .list [.int 1]), ("size", .int 1)] ∧
    "java.util.LinkedList" ≠ "java.util.ArrayList" := by
  exact ⟨rfl, by decide⟩

/-- C2 (amended): for a declared type whose clean name is java.util.List
or java.util.ArrayList and a sequence value, the coercion wraps the
sequence into a named object with path java.util.ArrayList and fields
elementData (the converted sequence) and size (its length), converting
nested mappings with the generic element type only when one is present
(and non-empty); the encoder then emits that object in list form, with
the size field never encoded.  Other List-like declared types
(LinkedList, Vector, Stack) keep their own path and are encoded as plain
objects. -/
theorem c2_list_coercion_encodes_as_list (st : EncState) (xs : List PyValue) (t : String)
    (h : extract_clean_type t = "java.util.List" ∨
      extract_clean_type t = "java.util.ArrayList") :
    convert_single_param (.list xs) t =
      .obj "java.util.ArrayList"
        [("elementData", .list (convert_collection_elements (extract_element_type t) xs)),
         ("size", .int (convert_collection_elements (extract_element_type t) xs).length)] ∧
    encode_value st (convert_single_param (.list xs) t) =
      encode_list st (convert_collection_elements (extract_element_type t) xs) := by
  have hlist : is_list_type t = true := by
    rcases h with h | h <;>
      simp [is_list_type, LIST_TYPES, h, py_contains]
  have hconv : convert_single_param (.list xs) t =
      .obj "java.util.ArrayList"
        [("elementData", .list (convert_collection_elements (extract_element_type t) xs)),
         ("size", .int (convert_collection_elements (extract_element_type t) xs).length)] := by
    rcases h with h | h <;>
      simp [convert_single_param, hlist, convert_list_to_java_collection, h]
  refine ⟨hconv, ?_⟩
  rw [hconv]
  simp [encode_value, has_element_data, encode_element_data]

/-- C2 witness: the amended theorem applied to the generic declared type
java.util.List of com.x.U with a one-element list. -/
theorem c2_list_coercion_encodes_as_list_witness :
    convert_single_param (.list [.int 1]) "java.util.List<com.x.U>" =
      .obj "java.util.ArrayList"
        [("elementData", .list (convert_collection_elements
            (extract_element_type "java.util.List<com.x.U>") [.int 1])),
         ("size", .int (convert_collection_elements
            (extract_element_type "java.util.List<com.x.U>") [.int 1]).length)] ∧
    encode_value ⟨[], []⟩ (convert_single_param (.list [.int 1]) "java.util.List<com.x.U>") =
      encode_list ⟨[], []⟩ (convert_collection_elements
        (extract_element_type "java.util.List<com.x.U>") [.int 1]) :=
  c2_list_coercion_encodes_as_list ⟨[], []⟩ [.int 1] "java.util.List<com.x.U>"
    (Or.inl (by decide))

/-- C6: the claim says a failed encode leaves the classDefs and listTypes
tables unchanged.  Encoding the heterogeneous list [1, "a"] from empty
tables registers the tag "[int" before reaching the failing element, so
the listTypes table is mutated by the failed operation. -/
theorem c6_error_mutates_tables :
    encode_value ⟨[], []⟩ (.list [.int 1, .str "a"]) =
      (⟨[], ["[int"]⟩, .error (.hessianTypeError "All elements in list must be the same type")) ∧
    (["[int"] : List String) ≠ [] := by
  exact ⟨rfl, by decide⟩

/-- C6 (amended): a failed encode may leave the session tables mutated:
entries appended before the failure persist and are never rolled back.
Encoding a heterogeneous int-led list whose tag is not yet recorded
appends "[int" to listTypes and then fails on the second element, leaving
the appended tag in the table. -/
theorem c6_list_error_keeps_tag (st : EncState) (n : Int) (s : String)
    (h : py_contains st.types "[int" = false) :
    encode_value st (.list [.int n, .str s]) =
      (⟨st.classes, st.types ++ ["[int"]⟩,
       .error (.hessianTypeError "All elements in list must be the same type")) := by
  simp [encode_value, encode_list, list_type_tag, list_header, h,
    encode_list_rest, kindOf]

/-- C6 witness: the amended theorem applied to non-empty starting tables. -/
theorem c6_list_error_keeps_tag_witness :
    encode_value ⟨["c.D"], ["[string"]⟩ (.list [.int 5, .str "x"]) =
      (⟨["c.D"], ["[string", "[int"]⟩,
       .error (.hessianTypeError "All elements in list must be the same type")) :=
  c6_list_error_keeps_tag ⟨["c.D"], ["[string"]⟩ 5 "x" (by decide)

/-- C4: the claim says both session tables are empty at entry AND at exit
of the framer.  They are empty at entry (Request.__init__), but after
framing a request with one object argument the class table still holds
the emitted path at exit: the tables are discarded with the Request, not
emptied. -/
theorem c4_exit_state_not_empty :
    (encode_request_body
      ⟨"2.4.10", "com.x.Foo", "", "m", [.obj "com.x.Bar" []], none, none⟩).1 =
      ⟨["com.x.Bar"], []⟩ ∧
    (⟨["com.x.Bar"], []⟩ : EncState) ≠ ⟨[], []⟩ := by
  exact ⟨rfl, by decide⟩

/-- C4 (amended): the session tables are empty at entry to the framer and
are local to one request frame: every frame is encoded from the fresh
empty state of its own Request, so the (possibly non-empty) exit state of
one frame is discarded and no session state leaks into any later frame,
whatever was framed before. -/
theorem c4_framer_fresh_state (rps : List RequestPayload) (rp : RequestPayload) :
    encode_request_body rp = encode_request_body_from ⟨[], []⟩ rp ∧
    (run_requests (rps ++ [rp])).getLast? = some (encode_request_body_from ⟨[], []⟩ rp) := by
  constructor
  · rfl
  · simp [run_requests, encode_request_body]

/-- C8: the claim (and the source's own comment in
DubboInvokeTool._process_typed_parameters) says that with a single
declared type the params value is treated as one single argument even
when it is a sequence.  A sequence params value that the coercion leaves
as a plain list (any non-List-like declared type, e.g. the array type
java.lang.String[]) is not wrapped by DubboClient.call, so its elements
become the whole argument list: two arguments reach the wire instead of
one. -/
theorem c8_single_type_sequence_not_single_arg :
    call_with_types_args (.list [.str "a", .str "b"]) ["java.lang.String[]"] =
      .ok [.str "a", .str "b"] ∧
    call_with_types_args (.list [.str "a", .str "b"]) ["java.lang.String[]"] ≠
      .ok [.list [.str "a", .str "b"]] := by
  refine ⟨rfl, ?_⟩
  intro h
  rw [show call_with_types_args (.list [.str "a", .str "b"]) ["java.lang.String[]"] =
      .ok [.str "a", .str "b"] from rfl] at h
  simp at h

/-! Helper lemmas for the provider-selection claim. -/

theorem total_weight_cons (u : String) (w : ℚ) (rest : List (String × ℚ)) :
    total_weight ((u, w) :: rest) = w + total_weight rest := by
  simp [total_weight]

theorem sel_loop_eq_first_cum (hit : ℚ) (hosts : List (String × ℚ)) :
    ∀ cur, sel_loop hit hosts cur = first_cum_exceeding hosts (hit - cur) := by
  induction hosts with
  | nil => intro cur; rfl
  | cons hw rest ih =>
    intro cur
    obtain ⟨u, w⟩ := hw
    simp only [sel_loop, first_cum_exceeding]
    by_cases hlt : hit < cur + w
    · rw [if_pos hlt, if_pos (by linarith)]
    · rw [if_neg hlt, if_neg (by intro hx; exact hlt (by linarith)), ih (cur + w)]
      congr 1
      ring

theorem first_cum_exceeding_isSome (hosts : List (String × ℚ)) :
    ∀ x : ℚ, 0 ≤ x → x < total_weight hosts →
      (first_cum_exceeding hosts x).isSome = true := by
  induction hosts with
  | nil =>
    intro x h0 hlt
    simp [total_weight] at hlt
    linarith
  | cons hw rest ih =>
    intro x h0 hlt
    obtain ⟨u, w⟩ := hw
    rw [total_weight_cons] at hlt
    simp only [first_cum_exceeding]
    by_cases hxw : x < w
    · rw [if_pos hxw]; rfl
    · rw [if_neg hxw]
      exact ih (x - w) (by linarith [not_lt.mp hxw]) (by linarith)

/-- C9: on an empty record list selection fails; when the total weight is
not positive it returns the oracle's uniform choice over the uris; and
for every drawn hit in [0, total), it returns the first record in
iteration order whose cumulative weight exceeds hit (which always
exists).  The drawn value hit models random.random() * total and the
choice oracle models random.choice. -/
theorem c9_select_provider_by_weight_spec (hosts : List (String × ℚ)) (hit : ℚ)
    (choice : List String → String) :
    (hosts = [] → select_provider_by_weight hosts hit choice =
      .error (.valueError "No available service provider")) ∧
    (hosts ≠ [] → total_weight hosts ≤ 0 →
      select_provider_by_weight hosts hit choice = .ok (choice (hosts.map Prod.fst))) ∧
    (0 ≤ hit → hit < total_weight hosts →
      (first_cum_exceeding hosts hit).isSome = true ∧
      select_provider_by_weight hosts hit choice =
        .ok ((first_cum_exceeding hosts hit).getD (choice (hosts.map Prod.fst)))) := by
  refine ⟨?_, ?_, ?_⟩
  · intro h; subst h; rfl
  · intro hne hle
    cases hosts with
    | nil => exact absurd rfl hne
    | cons a r =>
      simp only [select_provider_by_weight]
      rw [if_pos hle]
  · intro h0 hlt
    have hsome := first_cum_exceeding_isSome hosts hit h0 hlt
    refine ⟨hsome, ?_⟩
    cases hosts with
    | nil =>
      simp [total_weight] at hlt
      linarith
    | cons a r =>
      simp only [select_provider_by_weight]
      rw [if_neg (by linarith)]
      have hl := sel_loop_eq_first_cum hit (a :: r) 0
      rw [sub_zero] at hl
      rw [hl]
      cases hfc : first_cum_exceeding (a :: r) hit with
      | some u => simp
      | none => rw [hfc] at hsome; simp at hsome

/-- C9 witness: the theorem applied to two providers of weights 1 and 2
with the draw 3/2, selecting the second provider. -/
theorem c9_select_provider_by_weight_witness :
    select_provider_by_weight [("a", 1), ("b", 2)] (3/2) (fun _ => "z") = .ok "b" := by
  have h := (c9_select_provider_by_weight_spec [("a", 1), ("b", 2)] (3/2)
    (fun _ => "z")).2.2 (by norm_num) (by norm_num [total_weight])
  rw [h.2]
  norm_num [first_cum_exceeding]

/-- JSON parse stub used only to witness the tool-parameter theorem. -/
def parse0 : String → Except PyErr PyValue := fun _ => .ok .null

/-- C10: when the tool's parameter_types input is supplied and non-blank
while parameter_values is absent or blank, parameter processing fails
with the dedicated error instead of performing a zero-argument or
inferred-type call; only when both are absent (or blank) is the call
treated as the zero-argument invocation. -/
theorem c10_types_without_values_fails (parse : String → Except PyErr PyValue)
    (pt pv : Option String) :
    (normalize_param pt ≠ none → normalize_param pv = none →
      process_typed_parameters parse pt pv =
        .error (.valueError "Parameter types provided but parameter values not provided")) ∧
    (normalize_param pt = none → normalize_param pv = none →
      process_typed_parameters parse pt pv = .ok (none, some [])) := by
  constructor
  · intro hne hnv
    cases hpt : normalize_param pt with
    | none => exact absurd hpt hne
    | some t => simp [process_typed_parameters, hpt, hnv]
  · intro hnt hnv
    simp [process_typed_parameters, hnt, hnv]

/-- C10 witness: the theorem applied to a supplied type list with a
blank value string, and to the fully absent form. -/
theorem c10_types_without_values_fails_witness :
    process_typed_parameters parse0 (some "int") (some "   ") =
      .error (.valueError "Parameter types provided but parameter values not provided") ∧
    process_typed_parameters parse0 none none = .ok (none, some []) := by
  constructor
  · exact (c10_types_without_values_fails parse0 (some "int") (some "   ")).1
      (by decide) (by decide)
  · exact (c10_types_without_values_fails parse0 none none).2 rfl rfl
